import Mathlib

/-!
Shallow embedding of `src/indexed-db-client.ts` (class `IndexedDbClient`)
together with the parts of the host IndexedDB engine the client drives
(object stores keyed by an auto-incrementing `id`, secondary indexes,
`getAll`, forward/reverse cursors, key ranges).

Modelling conventions:
* IndexedDB keys and indexed field values live in one totally ordered key
  space, modelled by `Nat`.
* A record is its generated primary key `id` plus a field map
  (`keyPath: 'id'` with `autoIncrement: true` injects the key into the
  stored value, so the stored value is exactly `⟨id, fields⟩`).
* An object store keeps its records in ascending primary-key order (the
  engine's storage order); `Store.wf` states that invariant.
* Engine requests that can only fail through environmental faults
  (transaction aborts, quota) are modelled as succeeding; the failures the
  client's own logic produces (precondition throws, `NotFoundError` from
  `transaction`/`index`, `DataError` from `IDBKeyRange.only`, unique-index
  `ConstraintError`) are modelled explicitly.
* JavaScript truthiness is modelled where the source branches on it
  (`count || orderBy` on line 106, `value &&` on line 193,
  `key && key !== 'id'` on line 164): the number 0 and the empty string
  are falsy, every other key value and both `'asc'` and `'desc'` are truthy.
* Each stateful operation returns `Except DbError α × ClientState`: the
  second component is the client state after the call settles, so that
  failure paths keep their state effects visible.
-/

namespace IndexedDb

/-- A stored record: generated primary key plus the remaining fields. -/
structure Rec where
  id : Nat
  fields : List (String × Nat)
deriving Repr, DecidableEq

/-- First-match field lookup in a record's field list. -/
def lookupField : List (String × Nat) → String → Option Nat
  | [], _ => none
  | (g, v) :: rest, f => if g = f then some v else lookupField rest f

/-- The value of field `f` of record `r`, if present. -/
def Rec.getField (r : Rec) (f : String) : Option Nat := lookupField r.fields f

/-- `IDBKeyRange` (closed bounds), plus the exact-match range `only`. -/
inductive KeyRange where
  | only (k : Nat)
  | lowerBound (lo : Nat)
  | upperBound (hi : Nat)
  | bound (lo hi : Nat)
deriving Repr, DecidableEq

/-- Whether a key lies in a key range. -/
def KeyRange.matches : KeyRange → Nat → Bool
  | .only k, x => decide (x = k)
  | .lowerBound lo, x => decide (lo ≤ x)
  | .upperBound hi, x => decide (x ≤ hi)
  | .bound lo hi, x => decide (lo ≤ x ∧ x ≤ hi)

/-- `SelectParams.value`: a scalar key (exact match) or a key range. -/
inductive SelectValue where
  | key (k : Nat)
  | range (r : KeyRange)
deriving Repr, DecidableEq

/-- The query an engine read derives from a `value`: a scalar means
exact match. -/
def SelectValue.toQuery : SelectValue → KeyRange
  | .key k => .only k
  | .range r => r

/-- JavaScript truthiness of a `value` (the key `0` is falsy). -/
def SelectValue.truthy : SelectValue → Bool
  | .key k => decide (k ≠ 0)
  | .range _ => true

/-- Whether a key matches an optional query; no query matches everything. -/
def queryMatches : Option SelectValue → Nat → Bool
  | none, _ => true
  | some v, x => v.toQuery.matches x

/-- `orderBy` values. -/
inductive OrderBy where
  | asc
  | desc
deriving Repr, DecidableEq

/-- `SelectParams<I>` from `src/types`: all fields optional. -/
structure SelectParams where
  key : Option String := none
  value : Option SelectValue := none
  count : Option Nat := none
  orderBy : Option OrderBy := none
deriving Repr, DecidableEq

/-- `StorageIndex<I>` from the config: index name, source field,
optional uniqueness flag. -/
structure StorageIndexDecl where
  idxName : String
  key : String
  unique : Option Bool := none
deriving Repr, DecidableEq

/-- An index as created on a store (`createIndex` applied the
`unique = false` default from line 84). -/
structure CreatedIndex where
  idxName : String
  key : String
  unique : Bool
deriving Repr, DecidableEq

/-- An object store: its created indexes, the key generator's next key,
and the records in ascending primary-key order. -/
structure Store where
  indexes : List CreatedIndex
  nextKey : Nat
  records : List Rec
deriving Repr, DecidableEq

/-- `IDBConfig`: database name, optional version, storage names, and the
per-storage index declarations. -/
structure Config where
  dbName : String
  dbVersion : Option Nat := none
  storageNames : List String
  storeNameToIndexes : List (String × List StorageIndexDecl)
deriving Repr, DecidableEq

/-- The open database: an association list from storage name to store. -/
structure DBModel where
  stores : List (String × Store)
deriving Repr, DecidableEq

/-- The client's mutable state (`db`, `storageName`, `config`,
`_isInited`). -/
structure ClientState where
  db : Option DBModel
  storageName : Option String
  config : Option Config
  isInited : Bool
deriving Repr, DecidableEq

/-- The errors the modelled paths can produce. -/
inductive DbError where
  | configNotExist
  | dbNotInit
  | noStorageSelected
  | storageExists
  | storeNotFound (n : String)
  | indexNotFound (n : String)
  | dataError
  | constraintError
  | deleteDbFailed
  | deleteDbBlocked
deriving Repr, DecidableEq

/-- First-match lookup in an association list of stores. -/
def lookupAssoc : List (String × Store) → String → Option Store
  | [], _ => none
  | (m, s) :: rest, n => if m = n then some s else lookupAssoc rest n

/-- Look a store up by name. -/
def lookupStore (db : DBModel) (n : String) : Option Store :=
  lookupAssoc db.stores n

/-- `objectStoreNames.contains`. -/
def containsStore (db : DBModel) (n : String) : Bool :=
  (lookupStore db n).isSome

/-- Replace the first binding of `n` in an association list. -/
def replaceAssoc : List (String × Store) → String → Store → List (String × Store)
  | [], _, _ => []
  | (m, t) :: rest, n, s =>
    if m = n then (n, s) :: rest else (m, t) :: replaceAssoc rest n s

/-- Write back an updated store under its name. -/
def setStore (db : DBModel) (n : String) (s : Store) : DBModel :=
  ⟨replaceAssoc db.stores n s⟩

/-- First index on the store whose index name is `n`
(`IDBObjectStore.index`, `NotFoundError` when absent). -/
def findIx : List CreatedIndex → String → Option CreatedIndex
  | [], _ => none
  | ix :: rest, n => if ix.idxName = n then some ix else findIx rest n

/-- Look an index of a store up by its index name. -/
def findIndex (s : Store) (n : String) : Option CreatedIndex :=
  findIx s.indexes n

/-!  Query engine (`select`, lines 97-143).  -/

/-- The retrieval target `select` picks on lines 106-109: the primary-key
space of the store, or a named secondary index. -/
inductive SelectSource where
  | primary
  | index (name : String)
deriving Repr, DecidableEq

/-- Truthiness of `count` (line 106; the number 0 is falsy). -/
def countTruthy : Option Nat → Bool
  | none => false
  | some c => decide (c ≠ 0)

/-- Truthiness of `orderBy` (line 106; both `'asc'` and `'desc'` are
truthy strings). -/
def orderTruthy : Option OrderBy → Bool
  | none => false
  | some _ => true

/-- Line 106: `!params || key === 'id' || (params && (count || orderBy))`. -/
def isStorageSel : Option SelectParams → Bool
  | none => true
  | some p => p.key == some "id" || countTruthy p.count || orderTruthy p.orderBy

/-- The index-name string passed to `.index()` on line 109:
`` `${key ?? ''}` ``. -/
def keyStr : Option SelectParams → String
  | none => ""
  | some p => p.key.getD ""

/-- Lines 107-109: the object store itself when `isStorage`, else the
index named `` `${key ?? ''}` ``. -/
def selectSource (p : Option SelectParams) : SelectSource :=
  if isStorageSel p then .primary else .index (keyStr p)

/-- Ascending comparison used by the engine for a secondary index: by
indexed field value, ties broken by primary key. -/
def idxLe (f : String) (a b : Rec) : Bool :=
  let va := (a.getField f).getD 0
  let vb := (b.getField f).getD 0
  decide (va < vb) || (decide (va = vb) && decide (a.id ≤ b.id))

/-- Insertion step of the sort by a boolean comparison. -/
def insertSorted (le : Rec → Rec → Bool) (r : Rec) : List Rec → List Rec
  | [] => [r]
  | x :: xs => if le r x then r :: x :: xs else x :: insertSorted le r xs

/-- Insertion sort by a boolean comparison. -/
def sortRecs (le : Rec → Rec → Bool) (l : List Rec) : List Rec :=
  l.foldr (insertSorted le) []

/-- The records the chosen source yields for a query, in the engine's
ascending key order: for the primary source, store order (ascending by
`id`); for an index, records carrying the indexed field whose field value
matches, sorted by field value then primary key. `.index()` on a name the
store does not declare throws `NotFoundError` (line 109 / line 166). -/
def sourceMatches (s : Store) (src : SelectSource) (q : Option SelectValue) :
    Except DbError (List Rec) :=
  match src with
  | .primary => .ok (s.records.filter (fun r => queryMatches q r.id))
  | .index n =>
    match findIndex s n with
    | none => .error (.indexNotFound n)
    | some ix =>
      .ok (sortRecs (idxLe ix.key)
        (s.records.filter (fun r =>
          match r.getField ix.key with
          | some v => queryMatches q v
          | none => false)))

/-- `getAll`'s `count` argument: absent or 0 means no limit. -/
def applyCount : Option Nat → List Rec → List Rec
  | none, l => l
  | some c, l => if c = 0 then l else l.take c

/-- Line 124: `const isNeedStep = count && step ? step - count : true;` —
truthy exactly when `count` and `step` are both nonzero and their
difference is nonzero, or when either is zero. -/
def descStep (c : Option Nat) (step : Nat) : Bool :=
  match c with
  | some k => if k ≠ 0 ∧ step ≠ 0 then decide ((step : Int) - k ≠ 0) else true
  | none => true

/-- Lines 122-136: the reverse-cursor walk. Given the matching records in
descending key order, push the current record and advance while
`isNeedStep` is truthy and the cursor still has a record. -/
def descCollect (c : Option Nat) : List Rec → Nat → List Rec
  | [], _ => []
  | r :: rest, step =>
    if descStep c step then r :: descCollect c rest (step + 1) else []

/-- The body of `select` (lines 104-142) against one store: pick the
source, then either a bulk `getAll(value, count)` (ascending) or a
`openCursor(value, 'prev')` walk (descending). -/
def selectFrom (s : Store) (p : Option SelectParams) :
    Except DbError (List Rec) :=
  let q := p.bind (·.value)
  let c := p.bind (·.count)
  match sourceMatches s (selectSource p) q with
  | .error e => .error e
  | .ok asc =>
    if p.bind (·.orderBy) ≠ some .desc then
      .ok (applyCount c asc)
    else
      .ok (descCollect c asc.reverse 0)

/-!  Client state transitions.  -/

/-- `getStorage` (lines 231-243): fails when the connection is not open
or no storage is selected; `db.transaction` throws `NotFoundError` when
the selected storage does not exist. -/
def getStorage (st : ClientState) : Except DbError (String × Store) :=
  match st.db with
  | none => .error .dbNotInit
  | some db =>
    match st.storageName with
    | none => .error .noStorageSelected
    | some n =>
      match lookupStore db n with
      | none => .error (.storeNotFound n)
      | some s => .ok (n, s)

/-- `clearStorageName` (lines 245-247). -/
def clearStorage (st : ClientState) : ClientState :=
  { st with storageName := none }

/-- `from` (lines 91-95). -/
def fromOp (st : ClientState) (n : String) : ClientState :=
  { st with storageName := some n }

/-- `select` (lines 97-143). A synchronous throw (`getStorage`, or
`.index()` on an unknown name) rejects before any completion hook runs,
so the selection context keeps its previous value; the engine read's
completion (the bridge's `onSuccess`/`onError`, or the cursor handlers)
clears it. -/
def selectOp (st : ClientState) (p : Option SelectParams) :
    Except DbError (List Rec) × ClientState :=
  match getStorage st with
  | .error e => (.error e, st)
  | .ok (_, s) =>
    match selectFrom s p with
    | .error e => (.error e, st)
    | .ok l => (.ok l, clearStorage st)

/-- Violation of a unique index by a record (the engine's
`ConstraintError` on `put`): some unique index of the store has another
record with the same indexed field value. -/
def conflictWith (s : Store) (r : Rec) : Bool :=
  s.indexes.any (fun ix =>
    ix.unique &&
      match r.getField ix.key with
      | some v =>
        s.records.any (fun r2 =>
          decide (r2.id ≠ r.id) && r2.getField ix.key == some v)
      | none => false)

/-- The engine's `put` of a keyless value into a store with
`keyPath: 'id'` and `autoIncrement`: the generated key is injected into
the stored record, which is appended; the key generator advances. -/
def addRec (s : Store) (fields : List (String × Nat)) :
    Except DbError (Nat × Store) :=
  let r : Rec := ⟨s.nextKey, fields⟩
  if conflictWith s r then .error .constraintError
  else
    .ok (s.nextKey,
      { s with records := s.records ++ [r], nextKey := s.nextKey + 1 })

/-- `insert` (lines 145-153): `put` through the request bridge, whose
`onSuccess` and `onError` hooks both clear the selection context; the
request resolves with the generated key. -/
def insertOp (st : ClientState) (fields : List (String × Nat)) :
    Except DbError Nat × ClientState :=
  match getStorage st with
  | .error e => (.error e, st)
  | .ok (n, s) =>
    match addRec s fields with
    | .error e => (.error e, clearStorage st)
    | .ok (k, s2) =>
      (.ok k,
        clearStorage { st with db := st.db.map (fun db => setStore db n s2) })

/-- Keep the store's records sorted by primary key while replacing the
record carrying `r.id`, if any. -/
def insertById (r : Rec) : List Rec → List Rec
  | [] => [r]
  | x :: xs =>
    if x.id = r.id then r :: xs
    else if r.id < x.id then r :: x :: xs
    else x :: insertById r xs

/-- The engine's `put` of a record that carries its primary key: replace
the record at that key (or store it afresh), bumping the key generator
past it. -/
def putRec (s : Store) (r : Rec) : Except DbError Store :=
  if conflictWith s r then .error .constraintError
  else
    .ok { s with
      records := insertById r s.records,
      nextKey := max s.nextKey (r.id + 1) }

/-- `update` (lines 155-158): the `put` request is awaited as a raw
request object, not through the bridge, so its engine outcome is never
observed — the method resolves and clears the selection context whether
or not the write itself succeeds. -/
def updateOp (st : ClientState) (r : Rec) :
    Except DbError Unit × ClientState :=
  match getStorage st with
  | .error e => (.error e, st)
  | .ok (n, s) =>
    match putRec s r with
    | .error _ => (.ok (), clearStorage st)
    | .ok s2 =>
      (.ok (),
        clearStorage { st with db := st.db.map (fun db => setStore db n s2) })

/-- `delete` (lines 160-195). `isIndex = key && key !== 'id'` (the empty
string is falsy). The index branch opens a cursor over
`IDBKeyRange.only(value)` — which throws `DataError` synchronously when
`value` is absent or itself a range — and deletes every record at a
matching position; the primary branch runs `storage.delete(value)` only
when `value` is truthy. -/
def deleteOp (st : ClientState) (p : SelectParams) :
    Except DbError Unit × ClientState :=
  match getStorage st with
  | .error e => (.error e, st)
  | .ok (n, s) =>
    let isIndex : Bool :=
      match p.key with
      | none => false
      | some k => decide (k ≠ "") && decide (k ≠ "id")
    if isIndex then
      match findIndex s (keyStr (some p)) with
      | none => (.error (.indexNotFound (keyStr (some p))), st)
      | some ix =>
        match p.value with
        | some (.key v) =>
          let s2 :=
            { s with records :=
                s.records.filter (fun r => !(r.getField ix.key == some v)) }
          (.ok (),
            clearStorage { st with db := st.db.map (fun db => setStore db n s2) })
        | _ => (.error .dataError, st)
    else
      match p.value with
      | some v =>
        if v.truthy then
          let s2 :=
            { s with records :=
                s.records.filter (fun r => !(v.toQuery.matches r.id)) }
          (.ok (),
            clearStorage { st with db := st.db.map (fun db => setStore db n s2) })
        else (.ok (), clearStorage st)
      | none => (.ok (), clearStorage st)

/-!  Lifecycle manager (`init` upgrade phase, `createStorage`,
`deleteDb`).  -/

/-- `this.config?.storeNameToIndexes[storageName] || []` (line 82). -/
def configIndexes (cfg : Config) (n : String) : List StorageIndexDecl :=
  (cfg.storeNameToIndexes.lookup n).getD []

/-- The store `createStorage` builds (lines 77-88): `keyPath: 'id'`,
`autoIncrement: true` (generator starts at 1), every declared index
created with `unique` defaulting to `false`. -/
def newStore (cfg : Config) (n : String) : Store :=
  { indexes :=
      (configIndexes cfg n).map
        (fun d => { idxName := d.idxName, key := d.key, unique := d.unique.getD false }),
    nextKey := 1,
    records := [] }

/-- `createStorage` (lines 68-89) acting on an open database: fails when
the storage already exists, otherwise adds the fresh store. -/
def createStorageDb (cfg : Config) (db : DBModel) (n : String) :
    Except DbError DBModel :=
  if containsStore db n then .error .storageExists
  else .ok ⟨db.stores ++ [(n, newStore cfg n)]⟩

/-- One iteration of the `onupgradeneeded` loop (lines 50-54): create the
storage unless it already exists. -/
def upgradeStep (cfg : Config) (d : DBModel) (n : String) : DBModel :=
  if containsStore d n then d
  else
    match createStorageDb cfg d n with
    | .ok d2 => d2
    | .error _ => d

/-- The `onupgradeneeded` loop (lines 50-54): for every configured
storage name, create the storage unless it already exists. -/
def upgradeStorages (cfg : Config) (db : DBModel) : DBModel :=
  cfg.storageNames.foldl (upgradeStep cfg) db

/-- The three terminal events `indexedDB.deleteDatabase` can fire
(lines 205-216). -/
inductive DeleteDbOutcome where
  | success
  | errored
  | blocked
deriving Repr, DecidableEq

/-- `deleteDb` (lines 197-217): requires a config; on the engine's
success event the initialized flag is reset, on the error or blocked
events the promise rejects and no client state changes. -/
def deleteDbOp (st : ClientState) (o : DeleteDbOutcome) :
    Except DbError Unit × ClientState :=
  match st.config with
  | none => (.error .configNotExist, st)
  | some _ =>
    match o with
    | .success => (.ok (), { st with isInited := false })
    | .errored => (.error .deleteDbFailed, st)
    | .blocked => (.error .deleteDbBlocked, st)

/-- Store well-formedness: records in strictly ascending primary-key
order, all below the key generator's next key. -/
def Store.wf (s : Store) : Prop :=
  s.records.Pairwise (fun a b => a.id < b.id) ∧
    ∀ r ∈ s.records, r.id < s.nextKey

instance (s : Store) : Decidable s.wf := by
  unfold Store.wf
  infer_instance

/-!  Helper lemmas.  -/

theorem lookupAssoc_append_of_some {l1 : List (String × Store)} {n : String}
    {s : Store} (l2 : List (String × Store)) (h : lookupAssoc l1 n = some s) :
    lookupAssoc (l1 ++ l2) n = some s := by
  induction l1 with
  | nil => simp [lookupAssoc] at h
  | cons hd tl ih =>
    obtain ⟨m, t⟩ := hd
    by_cases hm : m = n
    · subst hm
      simp [lookupAssoc] at h ⊢
      exact h
    · simp [lookupAssoc, hm] at h ⊢
      exact ih h

theorem lookupAssoc_append_of_none {l1 : List (String × Store)} {n : String}
    (l2 : List (String × Store)) (h : lookupAssoc l1 n = none) :
    lookupAssoc (l1 ++ l2) n = lookupAssoc l2 n := by
  induction l1 with
  | nil => simp
  | cons hd tl ih =>
    obtain ⟨m, t⟩ := hd
    by_cases hm : m = n
    · subst hm
      simp [lookupAssoc] at h
    · simp [lookupAssoc, hm] at h ⊢
      exact ih h

theorem lookupAssoc_replace_self {l : List (String × Store)} {n : String}
    {s : Store} (s' : Store) (h : lookupAssoc l n = some s) :
    lookupAssoc (replaceAssoc l n s') n = some s' := by
  induction l with
  | nil => simp [lookupAssoc] at h
  | cons hd tl ih =>
    obtain ⟨m, t⟩ := hd
    by_cases hm : m = n
    · subst hm
      simp [lookupAssoc, replaceAssoc]
    · simp [lookupAssoc, replaceAssoc, hm] at h ⊢
      exact ih h

theorem lookupStore_setStore_self {db : DBModel} {n : String} {s : Store}
    (s' : Store) (h : lookupStore db n = some s) :
    lookupStore (setStore db n s') n = some s' :=
  lookupAssoc_replace_self s' h

theorem descCollect_none (l : List Rec) (step : Nat) :
    descCollect none l step = l := by
  induction l generalizing step with
  | nil => rfl
  | cons r rest ih => simp [descCollect, descStep, ih]

theorem descCollect_some_aux {k : Nat} (hk : k ≠ 0) (l : List Rec) :
    ∀ step, 1 ≤ step → step ≤ k →
      descCollect (some k) l step = l.take (k - step) := by
  induction l with
  | nil => intro step _ _; simp [descCollect]
  | cons r rest ih =>
    intro step h1 h2
    by_cases hstep : step = k
    · subst hstep
      have hds : descStep (some step) step = false := by
        simp [descStep, hk]
      simp [descCollect, hds, Nat.sub_self]
    · have hlt : step < k := lt_of_le_of_ne h2 hstep
      have hds : descStep (some k) step = true := by
        simp [descStep, hk]
        omega
      have htake : k - step = (k - (step + 1)) + 1 := by omega
      simp [descCollect, hds, ih (step + 1) (by omega) (by omega), htake]

theorem descCollect_take {k : Nat} (hk : k ≠ 0) (l : List Rec) :
    descCollect (some k) l 0 = l.take k := by
  obtain ⟨k', rfl⟩ : ∃ k', k = k' + 1 := ⟨k - 1, by omega⟩
  cases l with
  | nil => simp [descCollect]
  | cons r rest =>
    have hstep : descStep (some (k' + 1)) 0 = true := by simp [descStep]
    simp [descCollect, hstep,
      descCollect_some_aux (Nat.succ_ne_zero k') rest 1 (by omega) (by omega)]

theorem selectFrom_isOk {s : Store} {p : Option SelectParams}
    (h : ∀ nm, selectSource p = .index nm → (findIndex s nm).isSome = true) :
    ∃ l, selectFrom s p = .ok l := by
  unfold selectFrom
  cases hsrc : selectSource p with
  | primary =>
    simp [sourceMatches]
    split <;> exact ⟨_, rfl⟩
  | index nm =>
    have := h nm hsrc
    cases hfi : findIndex s nm with
    | none => rw [hfi] at this; simp at this
    | some ix =>
      simp [sourceMatches, hfi]
      split <;> exact ⟨_, rfl⟩

/-!  Concrete fixtures used by witnesses and counterexamples.  -/

/-- The `tasksName` index on field `name` from the repository's example
configuration. -/
def tasksIndexes : List CreatedIndex := [⟨"tasksName", "name", false⟩]

/-- A store holding one keyless record. -/
def oneRecStore : Store := { indexes := [], nextKey := 2, records := [⟨1, []⟩] }

/-- A store with two records whose `name` order disagrees with their
primary-key order. -/
def twoRecStore : Store :=
  { indexes := tasksIndexes, nextKey := 3,
    records := [⟨1, [("name", 20)]⟩, ⟨2, [("name", 10)]⟩] }

/-- The spec's deletion scenario: records A, B, A (name 10, 20, 10) under
keys 1, 2, 3. -/
def threeRecStore : Store :=
  { indexes := tasksIndexes, nextKey := 4,
    records := [⟨1, [("name", 10)]⟩, ⟨2, [("name", 20)]⟩, ⟨3, [("name", 10)]⟩] }

/-- A client with an open connection holding the given store under
`"tasks"`, with `"tasks"` selected. -/
def mkClient (s : Store) : ClientState :=
  { db := some ⟨[("tasks", s)]⟩, storageName := some "tasks",
    config := none, isInited := true }

/-- An open connection with no storage selected. -/
def noSelClient : ClientState :=
  { db := some ⟨[("tasks", oneRecStore)]⟩, storageName := none,
    config := none, isInited := true }

/-- The example configuration. -/
def cfgW : Config :=
  { dbName := "exampleIndexedDbClientDb", dbVersion := some 1,
    storageNames := ["tasks"],
    storeNameToIndexes := [("tasks", [⟨"tasksName", "name", none⟩])] }

/-- A configured client that has not opened a connection. -/
def cfgClient : ClientState :=
  { db := none, storageName := none, config := some cfgW, isInited := true }

/-!  Claim theorems.  -/

/-- C7: calling `select` or `insert` when the connection is open but no
`from` call has set a target storage fails with the fixed
"no storage selected" precondition error, and the whole client state —
connection handle and stored data included — is untouched. -/
theorem c7_no_storage_selected (st : ClientState) (db : DBModel)
    (hdb : st.db = some db) (hn : st.storageName = none)
    (p : Option SelectParams) (fields : List (String × Nat)) :
    selectOp st p = (.error .noStorageSelected, st) ∧
    insertOp st fields = (.error .noStorageSelected, st) := by
  have hg : getStorage st = .error .noStorageSelected := by
    simp [getStorage, hdb, hn]
  exact ⟨by simp [selectOp, hg], by simp [insertOp, hg]⟩

/-- C7 witness: the theorem applied to a concrete open connection. -/
theorem c7_no_storage_selected_witness :
    selectOp noSelClient none = (.error .noStorageSelected, noSelClient) ∧
    insertOp noSelClient [] = (.error .noStorageSelected, noSelClient) :=
  c7_no_storage_selected noSelClient ⟨[("tasks", oneRecStore)]⟩ rfl rfl none []

/-- C8: with a config present, a blocked database deletion rejects with
the blocked-deletion error and leaves the client state — the `isInited`
flag included — unchanged; an engine error likewise; only the success
event resets `isInited` to `false`. -/
theorem c8_deleteDb_blocked (st : ClientState) (cfg : Config)
    (h : st.config = some cfg) :
    deleteDbOp st .blocked = (.error .deleteDbBlocked, st) ∧
    deleteDbOp st .errored = (.error .deleteDbFailed, st) ∧
    deleteDbOp st .success = (.ok (), { st with isInited := false }) := by
  refine ⟨?_, ?_, ?_⟩ <;> simp [deleteDbOp, h]

/-- C8 witness: the theorem applied to a concrete configured client. -/
theorem c8_deleteDb_blocked_witness :
    deleteDbOp cfgClient .blocked = (.error .deleteDbBlocked, cfgClient) ∧
    deleteDbOp cfgClient .errored = (.error .deleteDbFailed, cfgClient) ∧
    deleteDbOp cfgClient .success = (.ok (), { cfgClient with isInited := false }) :=
  c8_deleteDb_blocked cfgClient cfgW rfl

/-- C10: `delete` with `key` absent or `"id"` and `value` absent or falsy
resolves successfully, removes nothing — the database, its stores and all
records are untouched — and still clears the selection context. -/
theorem c10_delete_falsy_noop (st : ClientState) (db : DBModel) (n : String)
    (s : Store) (hdb : st.db = some db) (hn : st.storageName = some n)
    (hs : lookupStore db n = some s) (p : SelectParams)
    (hkey : p.key = none ∨ p.key = some "id")
    (hval : p.value = none ∨ p.value = some (.key 0)) :
    deleteOp st p = (.ok (), { st with storageName := none }) := by
  have hg : getStorage st = .ok (n, s) := by simp [getStorage, hdb, hn, hs]
  rcases hkey with hk | hk <;> rcases hval with hv | hv <;>
    simp [deleteOp, hg, hk, hv, clearStorage, SelectValue.truthy]

/-- C10 witness: a concrete falsy-value `delete` by primary key. -/
theorem c10_delete_falsy_noop_witness :
    deleteOp (mkClient twoRecStore) { key := some "id" } =
      (.ok (), { mkClient twoRecStore with storageName := none }) :=
  c10_delete_falsy_noop (mkClient twoRecStore) ⟨[("tasks", twoRecStore)]⟩
    "tasks" twoRecStore rfl rfl rfl { key := some "id" }
    (Or.inr rfl) (Or.inl rfl)

/-- A client whose connection is not open while a storage is still
selected (reachable: `from('tasks')` before `init`). -/
def staleClient : ClientState :=
  { db := none, storageName := some "tasks", config := none, isInited := false }

/-- C1 counterexample: an operation can complete (reject) with the
selection context still set. With the connection not open and `"tasks"`
selected, `select` and `insert` reject with the `DB is not init`
precondition throw and `currentStorage` is still `"tasks"`, not null —
a stale target for the next call. -/
theorem c1_context_survives_sync_throw_cex :
    (selectOp staleClient none).1 = .error .dbNotInit ∧
    (selectOp staleClient none).2.storageName = some "tasks" ∧
    (insertOp staleClient []).2.storageName = some "tasks" ∧
    (updateOp staleClient ⟨1, []⟩).2.storageName = some "tasks" ∧
    (deleteOp staleClient { key := some "id", value := some (.key 1) }).2.storageName
      = some "tasks" :=
  ⟨rfl, rfl, rfl, rfl, rfl⟩

/-- C1 amended: the selection context is null after every operation that
gets past its synchronous preliminaries — connection open, a storage
selected and present, any index named by `select` declared, and an
index-scoped `delete` carrying a scalar value — on success and on
engine-reported failure alike; but a synchronous throw raised before the
engine request is issued (connection not open, missing storage, unknown
index name, index delete without a scalar value) leaves the previously
selected storage in place. -/
theorem c1_context_cleared_amended (st : ClientState) (db : DBModel)
    (n : String) (s : Store)
    (hdb : st.db = some db) (hn : st.storageName = some n)
    (hs : lookupStore db n = some s)
    (p : Option SelectParams) (q : SelectParams)
    (fields : List (String × Nat)) (r : Rec)
    (hsel : ∀ nm, selectSource p = .index nm → (findIndex s nm).isSome = true)
    (hdel : match q.key with
      | none => True
      | some k => k = "" ∨ k = "id" ∨
          ((findIndex s k).isSome = true ∧ ∃ v, q.value = some (.key v))) :
    (selectOp st p).2.storageName = none ∧
    (insertOp st fields).2.storageName = none ∧
    (updateOp st r).2.storageName = none ∧
    (deleteOp st q).2.storageName = none := by
  have hg : getStorage st = .ok (n, s) := by simp [getStorage, hdb, hn, hs]
  refine ⟨?_, ?_, ?_, ?_⟩
  · obtain ⟨l, hl⟩ := selectFrom_isOk hsel
    simp [selectOp, hg, hl, clearStorage]
  · simp only [insertOp, hg]
    split <;> simp [clearStorage]
  · simp only [updateOp, hg]
    split <;> simp [clearStorage]
  · simp only [deleteOp, hg]
    rcases hq : q.key with _ | k
    · simp only [hq]
      split <;> (try split) <;> (try split) <;>
        simp_all [clearStorage, SelectValue.truthy]
    · rw [hq] at hdel
      rcases hdel with hk | hk | ⟨hfi, v, hv⟩
      · subst hk
        simp only [hq]
        have hff : (decide (("" : String) ≠ "") && decide (("" : String) ≠ "id")) = false := by
          decide
        simp only [hff]
        split <;> (try split) <;> (try split) <;>
          simp_all [clearStorage, SelectValue.truthy]
      · subst hk
        simp only [hq]
        have hff : (decide (("id" : String) ≠ "") && decide (("id" : String) ≠ "id")) = false := by
          decide
        simp only [hff]
        split <;> (try split) <;> (try split) <;>
          simp_all [clearStorage, SelectValue.truthy]
      · obtain ⟨ix, hix⟩ := Option.isSome_iff_exists.mp hfi
        by_cases hke : k = "" ∨ k = "id"
        · rcases hke with hke | hke <;> subst hke <;> simp only [hq] <;>
            · rw [hv]
              split <;> (try split) <;> (try split) <;>
                simp_all [clearStorage, SelectValue.truthy]
        · push_neg at hke
          have hii : (decide (k ≠ "") && decide (k ≠ "id")) = true := by
            simp [hke.1, hke.2]
          simp only [hq, hii, if_pos]
          have hks : keyStr (some q) = k := by simp [keyStr, hq]
          rw [hks, hix, hv]
          simp [clearStorage]

/-- C1 amended witness: concrete runs of all four operations against an
open connection with `"tasks"` selected. -/
theorem c1_context_cleared_witness :
    (selectOp (mkClient twoRecStore) none).2.storageName = none ∧
    (insertOp (mkClient twoRecStore) [("name", 30)]).2.storageName = none ∧
    (updateOp (mkClient twoRecStore) ⟨1, [("name", 40)]⟩).2.storageName = none ∧
    (deleteOp (mkClient twoRecStore)
        { key := some "tasksName", value := some (.key 10) }).2.storageName = none :=
  c1_context_cleared_amended (mkClient twoRecStore) ⟨[("tasks", twoRecStore)]⟩
    "tasks" twoRecStore rfl rfl rfl none
    { key := some "tasksName", value := some (.key 10) } [("name", 30)]
    ⟨1, [("name", 40)]⟩ (by intro nm h; cases h) (by right; right; exact ⟨rfl, 10, rfl⟩)

/-- C2 counterexample: a descriptor that omits `key` but carries only a
`value` is not served from the primary-key space — line 106 routes it to
a secondary index named by the empty string, which fails with
`NotFoundError`, while a primary-key retrieval of the same value would
succeed and return the stored record. -/
theorem c2_key_absent_routed_to_index_cex :
    selectSource (some { value := some (.key 1) }) = .index "" ∧
    (selectOp (mkClient oneRecStore) (some { value := some (.key 1) })).1
      = .error (.indexNotFound "") ∧
    (selectOp (mkClient oneRecStore) (some { value := some (.key 1) })).2.storageName
      = some "tasks" ∧
    (selectOp (mkClient oneRecStore)
        (some { key := some "id", value := some (.key 1) })).1
      = .ok [⟨1, []⟩] :=
  ⟨rfl, rfl, rfl, rfl⟩

/-- C2 amended: a `select` whose descriptor sets `key = "id"` is always
served from the primary-key space, as is a call with no descriptor at
all; a descriptor that omits `key` is served from the primary-key space
exactly when `count` or `orderBy` is (truthily) present — and then the
retrieval depends only on the store's records, never on its declared
indexes — whereas a descriptor omitting `key` with only `value` present
is routed to a secondary-index lookup under the empty-string name. -/
theorem c2_primary_routing_amended (p : SelectParams)
    (_hk : p.key = none ∨ p.key = some "id")
    (h : p.key = some "id" ∨ countTruthy p.count = true ∨
      orderTruthy p.orderBy = true) :
    selectSource (some p) = .primary ∧
    selectSource none = .primary ∧
    (∀ s s2 : Store, s.records = s2.records →
      selectFrom s (some p) = selectFrom s2 (some p)) := by
  have hsel : isStorageSel (some p) = true := by
    rcases h with h | h | h <;> simp [isStorageSel, h]
  have hsrc : selectSource (some p) = .primary := by
    simp [selectSource, hsel]
  refine ⟨hsrc, rfl, ?_⟩
  intro s s2 hr
  simp [selectFrom, hsrc, sourceMatches, hr]

/-- C2 amended witness: a concrete `count`-bearing key-less descriptor is
routed to the primary space and reads the same result from the store with
indexes and from the same records with no indexes at all. -/
theorem c2_primary_routing_witness :
    selectSource (some { value := some (.key 1), count := some 5 }) = .primary ∧
    selectSource none = .primary ∧
    (∀ s s2 : Store, s.records = s2.records →
      selectFrom s (some { value := some (.key 1), count := some 5 })
        = selectFrom s2 (some { value := some (.key 1), count := some 5 })) :=
  c2_primary_routing_amended { value := some (.key 1), count := some 5 }
    (Or.inl rfl) (Or.inr (Or.inl rfl))

/-- C5 counterexample: on an ascending index-keyed select, adding
`count = 1` does not return the first result of the unbounded select —
line 106 reroutes the bounded call to the primary-key space, where the
index value 10 matches no primary key, so it returns `[]` instead of the
unbounded result's first element. -/
theorem c5_count_reroutes_index_cex :
    selectFrom twoRecStore
        (some { key := some "tasksName", value := some (.key 10), count := some 1 })
      = .ok [] ∧
    selectFrom twoRecStore
        (some { key := some "tasksName", value := some (.key 10) })
      = .ok [⟨2, [("name", 10)]⟩] ∧
    (Except.ok [] : Except DbError (List Rec))
      ≠ (Except.ok [⟨2, [("name", 10)]⟩] : Except DbError (List Rec)).map
          (List.take 1) := by
  refine ⟨rfl, rfl, ?_⟩
  simp [Except.map]

/-- C5 amended: `count = k` returns the first `k` results of the
unbounded select over the same match set (or all of them when fewer
match, without error) for every descending select and for every
ascending primary-key (`key = "id"`) select; for ascending selects keyed
to a real index the bounded call is rerouted to the primary-key space
and is in general no prefix of the unbounded index result. -/
theorem c5_count_prefix_amended (s : Store) (p : SelectParams) (k : Nat)
    (hk : k ≠ 0)
    (h : p.orderBy = some .desc ∨ p.key = some "id") :
    selectFrom s (some { p with count := some k })
      = (selectFrom s (some { p with count := none })).map (List.take k) := by
  have hsel1 : isStorageSel (some { p with count := some k }) = true := by
    simp [isStorageSel, countTruthy, hk]
  have hsel0 : isStorageSel (some { p with count := none }) = true := by
    rcases h with h | h <;> simp [isStorageSel, h, orderTruthy]
  have hsrc1 : selectSource (some { p with count := some k }) = .primary := by
    simp [selectSource, hsel1]
  have hsrc0 : selectSource (some { p with count := none }) = .primary := by
    simp [selectSource, hsel0]
  by_cases hor : p.orderBy = some .desc
  · rw [hor] at hsrc1 hsrc0
    simp [selectFrom, hsrc1, hsrc0, sourceMatches, hor, descCollect_take hk,
      descCollect_none, Except.map]
  · simp [selectFrom, hsrc1, hsrc0, sourceMatches, hor, applyCount, hk,
      Except.map]

/-- C5 amended witness: a concrete descending select with `count = 1`. -/
theorem c5_count_prefix_witness :
    selectFrom twoRecStore (some { count := some 1, orderBy := some OrderBy.desc })
      = (selectFrom twoRecStore (some { orderBy := some OrderBy.desc })).map
          (List.take 1) :=
  c5_count_prefix_amended twoRecStore { orderBy := some OrderBy.desc } 1
    (by decide) (Or.inl rfl)

/-- C6 counterexample: with `key` naming a real index, the descending
select is not the reverse of the ascending select over the same match
set — line 106 sends the descending call to the primary-key space, so it
walks primary keys backwards while the ascending call reads the index in
field order; on a store whose `name` order disagrees with key order the
two results coincide instead of being reverses, and the descending
result is not sorted by the index field. -/
theorem c6_desc_index_not_reverse_cex :
    selectFrom twoRecStore (some { key := some "tasksName", orderBy := some .desc })
      = .ok [⟨2, [("name", 10)]⟩, ⟨1, [("name", 20)]⟩] ∧
    selectFrom twoRecStore (some { key := some "tasksName" })
      = .ok [⟨2, [("name", 10)]⟩, ⟨1, [("name", 20)]⟩] ∧
    ([⟨2, [("name", 10)]⟩, ⟨1, [("name", 20)]⟩] : List Rec)
      ≠ List.reverse [⟨2, [("name", 10)]⟩, ⟨1, [("name", 20)]⟩] := by
  refine ⟨rfl, rfl, ?_⟩
  decide

/-- C6 amended: over the primary-key space (`key` absent or `"id"`, the
ascending run requested as `orderBy = "asc"`), the descending select
without `count` is the exact reverse of the ascending select over the
same match set, and the ascending result is sorted strictly by primary
key; for `key` naming a real index the property fails
(`c6_desc_index_not_reverse_cex`). -/
theorem c6_desc_reverse_primary_amended (s : Store) (q : Option SelectValue)
    (k : Option String) (hwf : s.wf) (_hk : k = none ∨ k = some "id") :
    ∃ l,
      selectFrom s
          (some { key := k, value := q, count := none, orderBy := some .asc })
        = .ok l ∧
      selectFrom s
          (some { key := k, value := q, count := none, orderBy := some .desc })
        = .ok l.reverse ∧
      l.Pairwise (fun a b => a.id < b.id) := by
  refine ⟨s.records.filter (fun r => queryMatches q r.id), ?_, ?_, ?_⟩
  · have hsrc :
        selectSource (some { key := k, value := q, count := none, orderBy := some OrderBy.asc })
          = .primary := by
      simp [selectSource, isStorageSel, orderTruthy]
    simp [selectFrom, hsrc, sourceMatches, applyCount]
  · have hsrc :
        selectSource (some { key := k, value := q, count := none, orderBy := some OrderBy.desc })
          = .primary := by
      simp [selectSource, isStorageSel, orderTruthy]
    simp [selectFrom, hsrc, sourceMatches, descCollect_none]
  · exact hwf.1.sublist (List.filter_sublist _)

/-- C6 amended witness: concrete ascending and descending primary-key
selects over the two-record store. -/
theorem c6_desc_reverse_primary_witness :
    ∃ l,
      selectFrom twoRecStore
          (some { key := some "id", value := none, count := none,
                  orderBy := some OrderBy.asc })
        = .ok l ∧
      selectFrom twoRecStore
          (some { key := some "id", value := none, count := none,
                  orderBy := some OrderBy.desc })
        = .ok l.reverse ∧
      l.Pairwise (fun a b => a.id < b.id) :=
  c6_desc_reverse_primary_amended twoRecStore none (some "id") (by decide)
    (Or.inr rfl)

/-- C3: on a well-formed store, a successful `insert` followed by a
`select` keyed to `"id"` at the generated primary key returns exactly one
record, equal to the inserted data extended with the assigned key. -/
theorem c3_insert_select_roundtrip (st : ClientState) (db : DBModel) (n : String)
    (s : Store) (fields : List (String × Nat)) (k : Nat) (st1 : ClientState)
    (hdb : st.db = some db) (hn : st.storageName = some n)
    (hs : lookupStore db n = some s) (hwf : s.wf)
    (hins : insertOp st fields = (.ok k, st1)) :
    (selectOp (fromOp st1 n)
        (some { key := some "id", value := some (.key k) })).1
      = .ok [⟨k, fields⟩] := by
  have hg : getStorage st = .ok (n, s) := by simp [getStorage, hdb, hn, hs]
  by_cases hconf : conflictWith s ⟨s.nextKey, fields⟩ = true
  · simp [insertOp, hg, addRec, hconf] at hins
  · have heval : insertOp st fields
        = (.ok s.nextKey,
            clearStorage { st with db := st.db.map (fun d => setStore d n
              { s with records := s.records ++ [⟨s.nextKey, fields⟩],
                       nextKey := s.nextKey + 1 }) }) := by
      simp [insertOp, hg, addRec, hconf]
    rw [heval, Prod.mk.injEq] at hins
    obtain ⟨hk1, hst1⟩ := hins
    injection hk1 with hk1
    subst hk1
    subst hst1
    have hg2 : getStorage (fromOp
        (clearStorage { st with db := st.db.map (fun d => setStore d n
          { s with records := s.records ++ [⟨s.nextKey, fields⟩],
                   nextKey := s.nextKey + 1 }) }) n)
        = .ok (n, { s with records := s.records ++ [⟨s.nextKey, fields⟩],
                           nextKey := s.nextKey + 1 }) := by
      simp [getStorage, fromOp, clearStorage, hdb,
        lookupStore_setStore_self _ hs]
    have hold : s.records.filter
        (fun r => queryMatches (some (.key s.nextKey)) r.id) = [] := by
      rw [List.filter_eq_nil_iff]
      intro r hr
      have hlt := hwf.2 r hr
      simp [queryMatches, SelectValue.toQuery, KeyRange.matches]
      omega
    have hsrc : selectSource
        (some { key := some "id", value := some (.key s.nextKey) }) = .primary := by
      simp [selectSource, isStorageSel]
    simp [selectOp, hg2, selectFrom, hsrc, sourceMatches, List.filter_append,
      hold, queryMatches, SelectValue.toQuery, KeyRange.matches, applyCount]
    intro a ha
    have := hwf.2 a ha
    omega

/-- C3 witness: a concrete insert into the one-record store and the
select at the generated key 2. -/
theorem c3_insert_select_roundtrip_witness :
    (selectOp (fromOp (insertOp (mkClient oneRecStore) [("name", 7)]).2 "tasks")
        (some { key := some "id", value := some (.key 2) })).1
      = .ok [⟨2, [("name", 7)]⟩] :=
  c3_insert_select_roundtrip (mkClient oneRecStore) ⟨[("tasks", oneRecStore)]⟩
    "tasks" oneRecStore [("name", 7)] 2
    (insertOp (mkClient oneRecStore) [("name", 7)]).2
    rfl rfl rfl (by decide) rfl

/-- C4: `delete` keyed to a declared index (unique or not) with a scalar
value removes exactly the records whose indexed field equals that value:
the result is a sublist of the prior records (every other record is
unchanged and in place, and the store's indexes and key generator are
untouched), and a record remains stored iff it was stored and its indexed
field differs from the value. -/
theorem c4_index_delete_exact (st : ClientState) (db : DBModel) (n : String)
    (s : Store) (kname : String) (v : Nat) (ix : CreatedIndex)
    (hdb : st.db = some db) (hn : st.storageName = some n)
    (hs : lookupStore db n = some s)
    (hk1 : kname ≠ "") (hk2 : kname ≠ "id")
    (hix : findIndex s kname = some ix) :
    ∃ s2,
      deleteOp st { key := some kname, value := some (.key v) }
        = (.ok (), { st with db := some (setStore db n s2), storageName := none }) ∧
      s2.indexes = s.indexes ∧
      s2.nextKey = s.nextKey ∧
      s2.records.Sublist s.records ∧
      (∀ r, r ∈ s2.records ↔ (r ∈ s.records ∧ ¬ r.getField ix.key = some v)) := by
  have hg : getStorage st = .ok (n, s) := by simp [getStorage, hdb, hn, hs]
  refine ⟨{ s with records :=
      s.records.filter (fun r => !(r.getField ix.key == some v)) },
    ?_, rfl, rfl, List.filter_sublist _, ?_⟩
  · have hii : (decide (kname ≠ "") && decide (kname ≠ "id")) = true := by
      simp [hk1, hk2]
    have hks : keyStr (some ({ key := some kname, value := some (.key v) } :
        SelectParams)) = kname := by
      simp [keyStr]
    simp [deleteOp, hg, hii, hks, hix, clearStorage, hdb]
    intro hcon
    exact absurd (hcon hk1) hk2
  · intro r
    simp [List.mem_filter]

/-- C4 witness: the spec's scenario — records A, B, A under keys 1, 2, 3;
deleting by the `tasksName` index at A's value removes records 1 and 3
and keeps record 2 in place. -/
theorem c4_index_delete_exact_witness :
    ∃ s2,
      deleteOp (mkClient threeRecStore)
          { key := some "tasksName", value := some (.key 10) }
        = (.ok (), { mkClient threeRecStore with
            db := some (setStore ⟨[("tasks", threeRecStore)]⟩ "tasks" s2),
            storageName := none }) ∧
      s2.indexes = threeRecStore.indexes ∧
      s2.nextKey = threeRecStore.nextKey ∧
      s2.records.Sublist threeRecStore.records ∧
      (∀ r, r ∈ s2.records ↔
        (r ∈ threeRecStore.records ∧ ¬ r.getField "name" = some 10)) :=
  c4_index_delete_exact (mkClient threeRecStore) ⟨[("tasks", threeRecStore)]⟩
    "tasks" threeRecStore "tasksName" 10 ⟨"tasksName", "name", false⟩
    rfl rfl rfl (by decide) (by decide) rfl

/-- One upgrade-loop step keeps every store that is already present,
records and indexes untouched. -/
theorem upgradeStep_preserves (cfg : Config) (d : DBModel) (m n : String)
    {s : Store} (h : lookupStore d n = some s) :
    lookupStore (upgradeStep cfg d m) n = some s := by
  by_cases hc : containsStore d m = true
  · simp [upgradeStep, hc, h]
  · simp [upgradeStep, createStorageDb, hc]
    show lookupAssoc (d.stores ++ [(m, newStore cfg m)]) n = some s
    exact lookupAssoc_append_of_some _ h

/-- One upgrade-loop step for a different name does not make a missing
store appear. -/
theorem upgradeStep_none_of_ne (cfg : Config) (d : DBModel) (m n : String)
    (hne : m ≠ n) (h : lookupStore d n = none) :
    lookupStore (upgradeStep cfg d m) n = none := by
  by_cases hc : containsStore d m = true
  · simp [upgradeStep, hc, h]
  · simp [upgradeStep, createStorageDb, hc]
    show lookupAssoc (d.stores ++ [(m, newStore cfg m)]) n = none
    rw [lookupAssoc_append_of_none _ h]
    simp [lookupAssoc, hne]

/-- The whole upgrade loop keeps every store that was present at its
start. -/
theorem upgradeFold_preserves (cfg : Config) (l : List String) :
    ∀ (d : DBModel) {n : String} {s : Store}, lookupStore d n = some s →
      lookupStore (l.foldl (upgradeStep cfg) d) n = some s := by
  induction l with
  | nil => intro d n s h; simpa using h
  | cons m tl ih =>
    intro d n s h
    rw [List.foldl_cons]
    exact ih _ (upgradeStep_preserves cfg d m n h)

/-- The upgrade loop creates every configured storage that is missing,
as the fresh auto-increment store with the declared indexes. -/
theorem upgradeFold_creates (cfg : Config) (l : List String) :
    ∀ (d : DBModel) {n : String}, n ∈ l → lookupStore d n = none →
      lookupStore (l.foldl (upgradeStep cfg) d) n = some (newStore cfg n) := by
  induction l with
  | nil => intro d n hmem; cases hmem
  | cons m tl ih =>
    intro d n hmem h
    rw [List.foldl_cons]
    by_cases hmn : m = n
    · subst hmn
      have hc : containsStore d m = false := by simp [containsStore, h]
      have hstep : lookupStore (upgradeStep cfg d m) m = some (newStore cfg m) := by
        simp [upgradeStep, createStorageDb, hc]
        show lookupAssoc (d.stores ++ [(m, newStore cfg m)]) m = some (newStore cfg m)
        rw [lookupAssoc_append_of_none _ h]
        simp [lookupAssoc]
      exact upgradeFold_preserves cfg tl _ hstep
    · have hmem' : n ∈ tl := by
        cases hmem with
        | head => exact absurd rfl hmn
        | tail _ h2 => exact h2
      exact ih _ hmem' (upgradeStep_none_of_ne cfg d m n hmn h)

/-- C9: during the upgrade phase, every storage named in the config that
does not yet exist is created as the fresh store — auto-incrementing
primary key starting at 1, no records, and exactly the declared indexes
with `unique` defaulting to false (`newStore`) — while a storage that
already exists is left completely untouched: its records, indexes and key
generator are unchanged. -/
theorem c9_upgrade_idempotent (cfg : Config) (db : DBModel) (n : String) :
    (n ∈ cfg.storageNames → lookupStore db n = none →
      lookupStore (upgradeStorages cfg db) n = some (newStore cfg n)) ∧
    (∀ s, lookupStore db n = some s →
      lookupStore (upgradeStorages cfg db) n = some s) :=
  ⟨fun hmem h => upgradeFold_creates cfg cfg.storageNames db hmem h,
   fun _ h => upgradeFold_preserves cfg cfg.storageNames db h⟩

/-- The database used for the C9 witness. -/
def dbW : DBModel := ⟨[("tasks", threeRecStore)]⟩

/-- C9 witness: upgrading a fresh database creates `tasks`; upgrading a
database already holding a populated `tasks` store leaves it untouched. -/
theorem c9_upgrade_idempotent_witness :
    lookupStore (upgradeStorages cfgW ⟨[]⟩) "tasks" = some (newStore cfgW "tasks") ∧
    lookupStore (upgradeStorages cfgW dbW) "tasks" = some threeRecStore :=
  ⟨(c9_upgrade_idempotent cfgW ⟨[]⟩ "tasks").1 (by decide) rfl,
   (c9_upgrade_idempotent cfgW dbW "tasks").2 threeRecStore rfl⟩

end IndexedDb
